import Mathlib

/-
Verification of the SaskPower smart-meter integration.

Shallow embedding of the repository's core logic:
  * the hourly incremental statistics builder of
    custom_components/saskpower_smartmeter/sensor.py
    (SaskPowerTotalConsumptionSensor / SaskPowerTotalCostSensor),
  * the usage and billing aggregation of
    custom_components/saskpower_smartmeter/scraper.py (get_data),
  * the policy extraction and cookie handling of both login
    implementations (custom_components/saskpower_smartmeter/scraper.py
    and the legacy root-level scraper.py).

Modelling conventions:
  * Python floats are modelled as exact rationals (Rat); the claims under
    study concern control flow, ordering and algebraic structure, not
    floating-point rounding error.
  * aware datetimes are modelled as integers: epoch seconds (UTC) in the
    statistics path, minutes in the provider's fixed-offset local zone in
    the aggregation path.  The provider zone has no DST transitions, so
    both representations are order- and interval-faithful.
  * Python dict/list truthiness (None or empty means false) is modelled
    with Option and emptiness tests.
-/

namespace SaskPower

/-! ### Sorted insertion on integer keys

Python iterates hourly buckets with sorted(dict-keys): the distinct keys
in ascending order.  We realise that with a duplicate-dropping sorted
insertion. -/

def insertKey (x : Int) : List Int → List Int
  | [] => [x]
  | y :: ys =>
    if x < y then x :: y :: ys
    else if x = y then y :: ys
    else y :: insertKey x ys

def sortedKeys (l : List Int) : List Int := l.foldr insertKey []

theorem mem_insertKey {x a : Int} {l : List Int} :
    a ∈ insertKey x l ↔ a = x ∨ a ∈ l := by
  induction l with
  | nil => simp [insertKey]
  | cons y ys ih =>
    by_cases h1 : x < y
    · simp [insertKey, h1]
    · by_cases h2 : x = y
      · subst h2; simp [insertKey, h1]
      · simp [insertKey, h1, h2, ih]
        tauto

theorem pairwise_insertKey {x : Int} {l : List Int}
    (h : l.Pairwise (· < ·)) : (insertKey x l).Pairwise (· < ·) := by
  induction l with
  | nil => simp [insertKey]
  | cons y ys ih =>
    rcases List.pairwise_cons.mp h with ⟨hy, hys⟩
    by_cases h1 : x < y
    · simp only [insertKey, if_pos h1]
      exact List.pairwise_cons.mpr ⟨by
        intro z hz
        rcases List.mem_cons.mp hz with rfl | hz
        · exact h1
        · exact lt_trans h1 (hy z hz), h⟩
    · by_cases h2 : x = y
      · simpa [insertKey, h1, h2] using h
      · have hyx : y < x := by omega
        simp only [insertKey, if_neg h1, if_neg h2]
        exact List.pairwise_cons.mpr ⟨by
          intro z hz
          rcases mem_insertKey.mp hz with rfl | hz
          · exact hyx
          · exact hy z hz, ih hys⟩

theorem mem_sortedKeys {a : Int} {l : List Int} :
    a ∈ sortedKeys l ↔ a ∈ l := by
  induction l with
  | nil => simp [sortedKeys]
  | cons x xs ih =>
    show a ∈ insertKey x (sortedKeys xs) ↔ _
    rw [mem_insertKey, ih]
    simp

theorem pairwise_sortedKeys (l : List Int) :
    (sortedKeys l).Pairwise (· < ·) := by
  induction l with
  | nil => simp [sortedKeys]
  | cons x xs ih => exact pairwise_insertKey ih

theorem mem_of_getLast?_eq_some {α : Type} {l : List α} {m : α}
    (h : l.getLast? = some m) : m ∈ l := by
  induction l with
  | nil => simp at h
  | cons x xs ih =>
    cases xs with
    | nil => simp_all
    | cons y ys =>
      rw [List.getLast?_cons_cons] at h
      exact List.mem_cons_of_mem x (ih h)

theorem le_getLast?_of_pairwise {l : List Int} {a m : Int}
    (hp : l.Pairwise (· < ·)) (ha : a ∈ l) (hm : l.getLast? = some m) :
    a ≤ m := by
  induction l with
  | nil => simp at ha
  | cons x xs ih =>
    rcases List.pairwise_cons.mp hp with ⟨hx, hxs⟩
    cases xs with
    | nil =>
      simp at hm ha
      omega
    | cons y ys =>
      rw [List.getLast?_cons_cons] at hm
      rcases List.mem_cons.mp ha with rfl | ha
      · exact le_of_lt (hx m (mem_of_getLast?_eq_some hm))
      · exact ih hxs ha hm

/-! ### Incremental statistics builder (sensor.py)

Embedding of SaskPowerTotalConsumptionSensor._import_statistics and
SaskPowerTotalCostSensor._import_statistics.  A reading's aware datetime,
converted with astimezone(utc), is its epoch-second instant; the
truncation replace(minute=0, second=0, microsecond=0) on a UTC datetime
is flooring the epoch seconds to a multiple of 3600.  Int./.% are
Euclidean, which for the positive divisor 3600 agrees with Python's
floor conventions. -/

structure Reading where
  time : Int
  usage : Rat
deriving DecidableEq, Repr

/-- One row returned by get_last_statistics: row.get("start") and
row.get("sum"), either of which may be None (mapped through the
source's x or 0 guard). -/
structure LastRow where
  start : Option Int
  sum : Option Rat
deriving DecidableEq, Repr

def hourStart (t : Int) : Int := t - t % 3600

/-- filter_time: one hour past the last recorded point when one exists,
otherwise now minus the configured backfill window. -/
def resumeTime (lastStat : Option LastRow) (backfillDays now : Int) : Int :=
  match lastStat with
  | some row => row.start.getD 0 + 3600
  | none => now - backfillDays * 86400

/-- starting_sum: the last recorded cumulative sum, or 0 on backfill. -/
def resumeSum (lastStat : Option LastRow) : Rat :=
  match lastStat with
  | some row => row.sum.getD 0
  | none => 0

/-- Total contributed to the bucket at hour h, under a per-reading value
function (raw usage for consumption, usage times unit cost for cost). -/
def hourTotal (val : Reading → Rat) (rs : List Reading) (h : Int) : Rat :=
  ((rs.filter (fun r => hourStart r.time = h)).map val).sum

/-- Walk the bucket hours in ascending order, accumulating the running
sum and emitting one (hour_start, cumulative_sum) point per bucket. -/
def runStats (tot : Int → Rat) : Rat → List Int → List (Int × Rat)
  | _, [] => []
  | base, h :: hs => (h, base + tot h) :: runStats tot (base + tot h) hs

/-- The shared bucket-and-emit block of both _import_statistics bodies:
keep readings strictly newer than filter_time, bucket them by UTC hour,
and emit cumulative points.  Returns the emitted points together with
the sensor value written afterwards (current_sum when anything was
emitted, starting_sum otherwise). -/
def bucketRun (val : Reading → Rat) (readings : List Reading)
    (filterT : Int) (base : Rat) : List (Int × Rat) × Rat :=
  let fresh := readings.filter (fun r => filterT < r.time)
  let hours := sortedKeys (fresh.map (fun r => hourStart r.time))
  let pts := runStats (hourTotal val fresh) base hours
  (pts, match pts.getLast? with
        | some p => p.2
        | none => base)

/-- SaskPowerTotalConsumptionSensor._import_statistics: resume point and
base from the recorder's last point, then bucket raw usage by hour. -/
def consumptionRun (readings : List Reading) (lastStat : Option LastRow)
    (backfillDays now : Int) : List (Int × Rat) × Rat :=
  bucketRun Reading.usage readings
    (resumeTime lastStat backfillDays now) (resumeSum lastStat)

/-- SaskPowerTotalCostSensor._import_statistics: identical shape, with
each reading contributing usage * avg_cost. -/
def costRun (readings : List Reading) (avgCost : Rat)
    (lastStat : Option LastRow) (backfillDays now : Int) :
    List (Int × Rat) × Rat :=
  bucketRun (fun r => r.usage * avgCost) readings
    (resumeTime lastStat backfillDays now) (resumeSum lastStat)

/-- Modelled from the spec: the external Statistics Store collaborator
(append_points / get_latest_point).  The series is append-only and
keyed by hour_start; emitted points are ascending and later than any
stored point, so after an append the most recent stored point is the
last emitted one, and an empty append leaves the store unchanged. -/
def storeAfter (lastStat : Option LastRow) (pts : List (Int × Rat)) :
    Option LastRow :=
  match pts.getLast? with
  | some p => some ⟨some p.1, some p.2⟩
  | none => lastStat

/-- Coordinator payload as read by the cost sensor: the
interval_readings list and the avg_cost_per_kwh entry of the combined
cycle result (absent when billing failed). -/
structure CoordData where
  intervalReadings : List Reading
  avgCost : Option Rat
deriving DecidableEq, Repr

/-- SaskPowerTotalCostSensor._async_handle_statistics_update: skip when
the coordinator has no data, when interval_readings is missing/empty,
and when avg_cost_per_kwh is falsy (None or exactly zero); otherwise run
the cost import.  Returns the points handed to async_import_statistics
and the sensor's native value (unchanged on every skip path). -/
def costUpdate (data : Option CoordData) (lastStat : Option LastRow)
    (backfillDays now : Int) (prevValue : Option Rat) :
    List (Int × Rat) × Option Rat :=
  match data with
  | none => ([], prevValue)
  | some d =>
    if d.intervalReadings = [] then ([], prevValue)
    else
      match d.avgCost with
      | none => ([], prevValue)
      | some a =>
        if a = 0 then ([], prevValue)
        else
          let r := costRun d.intervalReadings a lastStat backfillDays now
          (r.1, some r.2)

/-! ### Arithmetic facts about hour flooring -/

theorem hourStart_le (t : Int) : hourStart t ≤ t := by
  have := Int.emod_nonneg t (show (3600 : Int) ≠ 0 by norm_num)
  unfold hourStart; omega

theorem lt_hourStart_add (t : Int) : t < hourStart t + 3600 := by
  have := Int.emod_lt_of_pos t (show (0 : Int) < 3600 by norm_num)
  unfold hourStart; omega

theorem hourStart_dvd (t : Int) : (3600 : Int) ∣ hourStart t := by
  refine ⟨t / 3600, ?_⟩
  have := Int.ediv_add_emod t 3600
  unfold hourStart
  omega

theorem aligned_le_hourStart {a t : Int} (hd : (3600 : Int) ∣ a)
    (h : a ≤ t) : a ≤ hourStart t := by
  rcases hd with ⟨k, rfl⟩
  have h2 : t % 3600 < 3600 := Int.emod_lt_of_pos t (by norm_num)
  have h3 : 0 ≤ t % 3600 := Int.emod_nonneg t (by norm_num)
  unfold hourStart
  omega

/-! ### Structure of the emitted point list -/

theorem runStats_map_fst (tot : Int → Rat) (b : Rat) (hs : List Int) :
    (runStats tot b hs).map Prod.fst = hs := by
  induction hs generalizing b with
  | nil => rfl
  | cons h hs ih => simp [runStats, ih]

theorem bucketRun_fst (val : Reading → Rat) (rs : List Reading)
    (ft : Int) (base : Rat) :
    (bucketRun val rs ft base).1 =
      runStats (hourTotal val (rs.filter (fun r => ft < r.time))) base
        (sortedKeys ((rs.filter (fun r => ft < r.time)).map
          (fun r => hourStart r.time))) := rfl

theorem bucketRun_snd (val : Reading → Rat) (rs : List Reading)
    (ft : Int) (base : Rat) :
    (bucketRun val rs ft base).2 =
      match (bucketRun val rs ft base).1.getLast? with
      | some p => p.2
      | none => base := rfl

theorem bucketRun_of_fresh_nil {val : Reading → Rat} {rs : List Reading}
    {ft : Int} {base : Rat} (h : rs.filter (fun r => ft < r.time) = []) :
    bucketRun val rs ft base = ([], base) := by
  simp [bucketRun, h, sortedKeys, runStats]

/-- Every input reading lies at or before one hour past the last emitted
bucket hour: the point from which a subsequent run would resume. -/
theorem bucketRun_last_covers {val : Reading → Rat} {rs : List Reading}
    {ft : Int} {base : Rat} {hL : Int} {sL : Rat}
    (hlast : (bucketRun val rs ft base).1.getLast? = some (hL, sL)) :
    ∀ r ∈ rs, r.time ≤ hL + 3600 := by
  have hfst : (sortedKeys ((rs.filter (fun r => ft < r.time)).map
      (fun r => hourStart r.time))).getLast? = some hL := by
    have h1 := runStats_map_fst
      (hourTotal val (rs.filter (fun r => ft < r.time))) base
      (sortedKeys ((rs.filter (fun r => ft < r.time)).map
        (fun r => hourStart r.time)))
    rw [← h1, List.getLast?_map, ← bucketRun_fst val rs ft base, hlast]
    rfl
  obtain ⟨rL, hrLmem, hrLhour⟩ :
      ∃ r, (r ∈ rs.filter (fun r => ft < r.time)) ∧
        hourStart r.time = hL := by
    have h2 := mem_sortedKeys.mp (mem_of_getLast?_eq_some hfst)
    simpa using h2
  have hrLfresh : rL ∈ rs ∧ ft < rL.time := by
    simpa using List.mem_filter.mp hrLmem
  have hdvd : (3600 : Int) ∣ hL + 3600 :=
    dvd_add (hrLhour ▸ hourStart_dvd rL.time) ⟨1, by norm_num⟩
  intro r hr
  by_contra hcon
  push_neg at hcon
  by_cases hfr : ft < r.time
  · have hmem : hourStart r.time ∈ sortedKeys
        ((rs.filter (fun r => ft < r.time)).map
          (fun r => hourStart r.time)) := by
      rw [mem_sortedKeys]
      exact List.mem_map_of_mem _ (List.mem_filter.mpr ⟨hr, by simpa using hfr⟩)
    have h1 : hourStart r.time ≤ hL :=
      le_getLast?_of_pairwise (pairwise_sortedKeys _) hmem hfst
    have h2 : hL + 3600 ≤ hourStart r.time :=
      aligned_le_hourStart hdvd (by omega)
    omega
  · have h3 : hL + 3600 < rL.time := by
      push_neg at hfr
      omega
    have h4 : hL + 3600 ≤ hourStart rL.time :=
      aligned_le_hourStart hdvd (le_of_lt h3)
    rw [hrLhour] at h4
    omega

/-! ### Claims about the incremental statistics builder -/

/-- Claim C1: when the store's most recent point for the series has
hour_start H and a non-empty sum S, the consumption run resumes from
H + 3600 with running base S; readings not strictly after H + 3600 are
excluded (pre-dropping them changes nothing), and on the concrete
scenario (last point 2024-01-01T10:00:00Z with sum 50, readings at
10:30Z of 2.0 and 11:15Z of 3.0) exactly one point is emitted, for the
11:00Z bucket, carrying cumulative sum 53. -/
theorem c1_resume_from_last_point :
    (∀ (H : Int) (S : Rat) (rs : List Reading) (bd now : Int),
      resumeTime (some ⟨some H, some S⟩) bd now = H + 3600 ∧
      resumeSum (some ⟨some H, some S⟩) = S ∧
      consumptionRun rs (some ⟨some H, some S⟩) bd now =
        consumptionRun (rs.filter (fun r => H + 3600 < r.time))
          (some ⟨some H, some S⟩) bd now) ∧
    (∀ bd now : Int,
      consumptionRun [⟨1704105000, 2⟩, ⟨1704107700, 3⟩]
        (some ⟨some 1704103200, some 50⟩) bd now =
        ([(1704106800, 53)], 53)) := by
  constructor
  · intro H S rs bd now
    refine ⟨rfl, rfl, ?_⟩
    unfold consumptionRun bucketRun
    simp only [resumeTime, resumeSum, Option.getD_some, List.filter_filter]
    simp
  · intro bd now
    show bucketRun _ _ _ _ = _
    norm_num [bucketRun, resumeTime, resumeSum, hourTotal, hourStart,
      sortedKeys, insertKey, runStats, List.filter]

/-- Claim C2: replaying the consumption run on an unchanged window of
readings, with the store now holding the last point the first run
wrote, emits no new points and reports the same cumulative sum. -/
theorem c2_replay_idempotent (rs : List Reading) (store : Option LastRow)
    (bd now : Int) :
    (consumptionRun rs
        (storeAfter store (consumptionRun rs store bd now).1) bd now).1 = [] ∧
    (consumptionRun rs
        (storeAfter store (consumptionRun rs store bd now).1) bd now).2 =
      (consumptionRun rs store bd now).2 := by
  rcases hlast : (consumptionRun rs store bd now).1.getLast? with _ | ⟨hL, sL⟩
  · -- the first run emitted nothing: the store is unchanged and the
    -- second run is literally the first run, whose point list is empty
    have hnil : (consumptionRun rs store bd now).1 = [] :=
      List.getLast?_eq_none_iff.mp hlast
    rw [storeAfter, hlast]
    exact ⟨by rw [hnil], rfl⟩
  · -- the first run emitted points ending at (hL, sL): every reading is
    -- at or before hL + 3600, so the replay's fresh set is empty
    have hcov : ∀ r ∈ rs, r.time ≤ hL + 3600 :=
      @bucketRun_last_covers Reading.usage rs
        (resumeTime store bd now) (resumeSum store) hL sL hlast
    have hstore : storeAfter store (consumptionRun rs store bd now).1 =
        some ⟨some hL, some sL⟩ := by
      rw [storeAfter, hlast]
    have hfresh : rs.filter
        (fun r => resumeTime (some ⟨some hL, some sL⟩) bd now < r.time) = [] := by
      rw [List.filter_eq_nil_iff]
      intro r hr
      have := hcov r hr
      simp only [resumeTime, Option.getD_some, decide_eq_true_eq]
      omega
    have hrun2 : consumptionRun rs (some ⟨some hL, some sL⟩) bd now =
        ([], sL) := by
      unfold consumptionRun
      rw [bucketRun_of_fresh_nil hfresh]
      rfl
    have hsnd : (consumptionRun rs store bd now).2 = sL := by
      have := bucketRun_snd Reading.usage rs
        (resumeTime store bd now) (resumeSum store)
      rw [show (consumptionRun rs store bd now).2 =
        (bucketRun Reading.usage rs (resumeTime store bd now)
          (resumeSum store)).2 from rfl, this]
      rw [show (bucketRun Reading.usage rs (resumeTime store bd now)
        (resumeSum store)).1 = (consumptionRun rs store bd now).1 from rfl]
      rw [hlast]
    rw [hstore, hrun2, hsnd]
    exact ⟨rfl, rfl⟩

/-- Claim C9: when avg_cost_per_kwh is absent or exactly zero the cost
statistics update is a no-op, even with interval readings present: no
points are handed to the recorder, the sensor value is untouched, and
the external series keeps its previous latest point. -/
theorem c9_cost_skip_on_falsy_avg (d : CoordData) (lastStat : Option LastRow)
    (bd now : Int) (prev : Option Rat)
    (h : d.avgCost = none ∨ d.avgCost = some 0) :
    costUpdate (some d) lastStat bd now prev = ([], prev) ∧
    storeAfter lastStat (costUpdate (some d) lastStat bd now prev).1 =
      lastStat := by
  have hmain : costUpdate (some d) lastStat bd now prev = ([], prev) := by
    rcases h with h | h <;> simp [costUpdate, h]
  exact ⟨hmain, by rw [hmain]; rfl⟩

/-- Witness for C9 at a concrete coordinator payload holding a reading
but a zero unit cost. -/
theorem c9_cost_skip_on_falsy_avg_witness :
    (CoordData.avgCost ⟨[⟨1704105000, 2⟩], some 0⟩ = none ∨
      CoordData.avgCost ⟨[⟨1704105000, 2⟩], some 0⟩ = some 0) ∧
    costUpdate (some ⟨[⟨1704105000, 2⟩], some 0⟩) none 30 1704200000
      (some 7) = ([], some 7) :=
  ⟨Or.inr rfl,
    (c9_cost_skip_on_falsy_avg ⟨[⟨1704105000, 2⟩], some 0⟩ none 30
      1704200000 (some 7) (Or.inr rfl)).1⟩

/-! ### Usage aggregation (scraper.py, get_data, PD branch)

A parsed usage row carries a timezone-aware datetime in the provider's
fixed-offset zone and a consumption value.  The datetime is modelled as
minutes since the epoch in that local zone; the calendar date used as
the grouping key is then the floor day index, and date arithmetic with
timedelta(days=i) is integer day arithmetic.  Rows that fail to parse
are skipped one by one, which is modelled by presenting each raw row as
an Option: none stands for a row whose float/strptime conversion (or
key lookup) raised. -/

structure UR where
  t : Int
  usage : Rat
deriving DecidableEq, Repr

/-- The calendar date of a reading (aware_dt.date() as a day index). -/
def urDay (r : UR) : Int := r.t / 1440

def dayReadings (rs : List UR) (d : Int) : List UR :=
  rs.filter (fun r => urDay r = d)

/-- len(data_by_day[d]). -/
def dayCount (rs : List UR) (d : Int) : Nat := (dayReadings rs d).length

/-- sum(data_by_day.get(d, [])). -/
def daySum (rs : List UR) (d : Int) : Rat :=
  ((dayReadings rs d).map UR.usage).sum

/-- sorted(data_by_day.keys(), reverse=True). -/
def daysDesc (rs : List UR) : List Int :=
  (sortedKeys (rs.map urDay)).reverse

/-- next((d for d in sorted(keys, reverse=True) if len(...) >= 96), None):
the most recent calendar date carrying at least 96 readings. -/
def mostRecentFullDay (rs : List UR) : Option Int :=
  (daysDesc rs).find? (fun d => 96 ≤ dayCount rs d)

/-- daily_usage before rounding: the chosen day's sum, 0 when no day
qualifies. -/
def dailyUsage (rs : List UR) : Rat :=
  match mostRecentFullDay rs with
  | some d => daySum rs d
  | none => 0

/-- weekly_usage before rounding: the chosen day and the 6 preceding
calendar days, whether or not those are complete. -/
def weeklyUsage (rs : List UR) : Rat :=
  match mostRecentFullDay rs with
  | some d => ((List.range 7).map (fun i => daySum rs (d - (i : Int)))).sum
  | none => 0

/-- monthly_usage before rounding: readings whose date lies in the
previous calendar month.  The two bounds are the first and last day of
the month before today in the provider zone; their Gregorian derivation
from "now" is outside the embedded fragment, so they enter as
parameters.  Summing group sums over qualifying days equals summing the
qualifying readings directly. -/
def monthlySum (rs : List UR) (firstPrev lastPrev : Int) : Rat :=
  ((rs.filter (fun r => firstPrev ≤ urDay r ∧ urDay r ≤ lastPrev)).map
    UR.usage).sum

/-- The loop tracking latest_reading_dt: None to start, replaced
whenever a strictly later reading appears. -/
def latestTime (rs : List UR) : Option Int :=
  rs.foldl
    (fun acc r =>
      match acc with
      | none => some r.t
      | some m => if m < r.t then some r.t else some m)
    none

/-- interval_readings.sort(key=datetime): stable ascending insertion. -/
def insertByT (r : UR) : List UR → List UR
  | [] => [r]
  | x :: xs => if r.t < x.t then r :: x :: xs else x :: insertByT r xs

def sortByT (rs : List UR) : List UR := rs.foldr insertByT []

/-- Python round(x, 3) is round-half-to-even at the third decimal. -/
def roundHalfEven (q : Rat) : Int :=
  let n := ⌊q⌋
  let f := q - n
  if f < 1/2 then n
  else if 1/2 < f then n + 1
  else if n % 2 = 0 then n
  else n + 1

def round3 (q : Rat) : Rat := (roundHalfEven (1000 * q) : Rat) / 1000

/-- The usage_stats dict built in the PD branch. -/
structure UsageStats where
  dailyUsage : Rat
  weeklyUsage : Rat
  monthlyUsage : Rat
  latestDataTimestamp : Option Int
  intervalReadings : List UR
deriving DecidableEq, Repr

/-- The PD branch of get_data on a non-empty row list: skip unparseable
rows individually, then derive the summary numbers. -/
def usageStatsOf (rows : List (Option UR)) (firstPrev lastPrev : Int) :
    UsageStats :=
  let valid := rows.filterMap id
  { dailyUsage := round3 (dailyUsage valid)
    weeklyUsage := round3 (weeklyUsage valid)
    monthlyUsage := round3 (monthlySum valid firstPrev lastPrev)
    latestDataTimestamp := latestTime valid
    intervalReadings := sortByT valid }

/-! ### Billing aggregation (scraper.py, get_data, BB branch) -/

/-- One exported billing row after string handling.  issueDate is the
parsed BillIssueDate (none if the column is missing or strptime would
raise); charges is TotalCharges after stripping currency symbols and
thousands separators (a missing key defaults to "0", hence some 0;
none marks an unparseable string); usage is ConsumptionKwh likewise. -/
structure RawBillRow where
  issueDate : Option Int
  charges : Option Rat
  usage : Option Rat
deriving DecidableEq, Repr

structure BillingStats where
  lastBillTotalCharges : Rat
  lastBillTotalUsage : Rat
  avgCostPerKwh : Rat
deriving DecidableEq, Repr

/-- max(billing_data, key=issue date): scans left to right, replacing
the champion only on a strictly larger key, so the first maximal row
wins ties. -/
def latestRawBill (r0 : RawBillRow) (rest : List RawBillRow) : RawBillRow :=
  rest.foldl
    (fun best r =>
      if best.issueDate.getD 0 < r.issueDate.getD 0 then r else best)
    r0

/-- The BB branch: empty input is falsy (summary stays empty); a first
row without the issue-date column is a non-fatal warning (summary stays
empty); a date or number that fails to parse anywhere raises inside the
try-block and likewise leaves the summary empty; otherwise the latest
bill yields charges, usage and the guarded average cost. -/
def computeBilling (rows : List RawBillRow) : Option BillingStats :=
  match rows with
  | [] => none
  | r0 :: rest =>
    if rows.all (fun r => r.issueDate.isSome) then
      let latest := latestRawBill r0 rest
      match latest.charges, latest.usage with
      | some ch, some us =>
        some ⟨ch, us, if 0 < us then ch / us else 0⟩
      | _, _ => none
    else none

/-- A billing row whose three fields all parsed. -/
structure BillRow where
  issueDate : Int
  charges : Rat
  usage : Rat
deriving DecidableEq, Repr

def BillRow.toRaw (r : BillRow) : RawBillRow :=
  ⟨some r.issueDate, some r.charges, some r.usage⟩

def latestBill (r0 : BillRow) (rest : List BillRow) : BillRow :=
  rest.foldl (fun best r => if best.issueDate < r.issueDate then r else best) r0

/-! ### Cycle combination (scraper.py, get_data) -/

/-- Outcome of one _fetch_data_from_api call as seen by get_data:
a transport error raised out of requests (netErr, caught only by the
outer handler, which abandons the whole cycle), a category-scoped
failure returning None (no data available, unexpected content type,
empty payload, archive without a csv), or a parsed row list. -/
inductive Fetched (α : Type) where
  | netErr : Fetched α
  | failed : Fetched α
  | rows : List α → Fetched α
deriving DecidableEq

/-- usage_stats as a presence-tracked summary: the dict stays empty
unless the fetch produced a non-empty (truthy) row list. -/
def usageSummary (uF : Fetched (Option UR)) (firstPrev lastPrev : Int) :
    Option UsageStats :=
  match uF with
  | .rows l => if l = [] then none else some (usageStatsOf l firstPrev lastPrev)
  | _ => none

/-- billing_stats as a presence-tracked summary. -/
def billingSummary (bF : Fetched RawBillRow) : Option BillingStats :=
  match bF with
  | .rows l => computeBilling l
  | _ => none

/-- combined_data = dict-union of the two summaries; its emptiness is
joint emptiness of the parts. -/
structure CycleResult where
  usage : Option UsageStats
  billing : Option BillingStats
deriving DecidableEq

/-- get_data: abort on failed login; a transport error in the usage
fetch, or in the billing fetch (raised after usage was already
processed), falls through to the outer exception handler and the cycle
returns None; otherwise combine the two summaries, returning None only
when both are empty.  The verification-token fetch failing is
observationally the usage fetch never succeeding and the billing fetch
never running, i.e. a netErr/failed pair, so it needs no separate
parameter. -/
def getData (loginOk : Bool) (uF : Fetched (Option UR))
    (bF : Fetched RawBillRow) (firstPrev lastPrev : Int) :
    Option CycleResult :=
  if loginOk = false then none
  else
    match uF with
    | .netErr => none
    | _ =>
      match bF with
      | .netErr => none
      | _ =>
        match usageSummary uF firstPrev lastPrev, billingSummary bF with
        | none, none => none
        | us, bs => some ⟨us, bs⟩

/-! ### Claims about the billing aggregation -/

theorem latestRawBill_map (r0 : BillRow) (rest : List BillRow) :
    latestRawBill r0.toRaw (rest.map BillRow.toRaw) =
      (latestBill r0 rest).toRaw := by
  induction rest generalizing r0 with
  | nil => rfl
  | cons r rs ih =>
    show latestRawBill _ (r.toRaw :: _) = _
    unfold latestRawBill latestBill
    simp only [List.foldl_cons]
    have hstep :
        (if (BillRow.toRaw r0).issueDate.getD 0 <
            (BillRow.toRaw r).issueDate.getD 0 then r.toRaw else r0.toRaw) =
          (if r0.issueDate < r.issueDate then r else r0).toRaw := by
      by_cases h : r0.issueDate < r.issueDate <;> simp [BillRow.toRaw, h]
    rw [hstep]
    exact ih (if r0.issueDate < r.issueDate then r else r0)

theorem le_latestBill (r0 : BillRow) (rest : List BillRow) :
    ∀ r ∈ r0 :: rest, r.issueDate ≤ (latestBill r0 rest).issueDate := by
  induction rest generalizing r0 with
  | nil =>
    intro r hr
    simp at hr
    subst hr
    exact le_refl _
  | cons r1 rs ih =>
    intro r hr
    have hstep : latestBill r0 (r1 :: rs) =
        latestBill (if r0.issueDate < r1.issueDate then r1 else r0) rs := rfl
    have hb0 : r0.issueDate ≤
        (if r0.issueDate < r1.issueDate then r1 else r0).issueDate := by
      split <;> omega
    have hb1 : r1.issueDate ≤
        (if r0.issueDate < r1.issueDate then r1 else r0).issueDate := by
      split <;> omega
    have hbb := ih (if r0.issueDate < r1.issueDate then r1 else r0)
      _ (List.mem_cons_self _ _)
    rcases List.mem_cons.mp hr with rfl | hr2
    · rw [hstep]; exact le_trans hb0 hbb
    · rcases List.mem_cons.mp hr2 with rfl | hr3
      · rw [hstep]; exact le_trans hb1 hbb
      · rw [hstep]
        exact ih (if r0.issueDate < r1.issueDate then r1 else r0) r
          (List.mem_cons_of_mem _ hr3)

/-- Claim C6: on any non-empty list of fully parsed billing rows the
aggregation succeeds (no division fault), the selected bill has the
maximal issue date, and avg_cost_per_kwh is charges / usage when usage
is positive and exactly 0 when usage is 0, recovering the charges by
multiplication in the positive case. -/
theorem c6_avg_cost_guarded (r0 : BillRow) (rest : List BillRow) :
    computeBilling ((r0 :: rest).map BillRow.toRaw) =
      some ⟨(latestBill r0 rest).charges, (latestBill r0 rest).usage,
        if 0 < (latestBill r0 rest).usage then
          (latestBill r0 rest).charges / (latestBill r0 rest).usage
        else 0⟩ ∧
    ((latestBill r0 rest).usage = 0 →
      (if 0 < (latestBill r0 rest).usage then
        (latestBill r0 rest).charges / (latestBill r0 rest).usage
      else 0) = 0) ∧
    (0 < (latestBill r0 rest).usage →
      (if 0 < (latestBill r0 rest).usage then
        (latestBill r0 rest).charges / (latestBill r0 rest).usage
      else 0) * (latestBill r0 rest).usage = (latestBill r0 rest).charges) ∧
    (∀ r ∈ r0 :: rest, r.issueDate ≤ (latestBill r0 rest).issueDate) := by
  refine ⟨?_, ?_, ?_, le_latestBill r0 rest⟩
  · show computeBilling (r0.toRaw :: rest.map BillRow.toRaw) = _
    have hall : (r0.toRaw :: rest.map BillRow.toRaw).all
        (fun r => r.issueDate.isSome) = true := by
      simp [List.all_eq_true, BillRow.toRaw]
    simp only [computeBilling, if_pos hall, latestRawBill_map]
    rfl
  · intro h
    rw [if_neg (by rw [h]; exact lt_irrefl 0)]
  · intro h
    rw [if_pos h]
    exact div_mul_cancel₀ _ (ne_of_gt h)

/-- Witness for C6 at the spec's scenario: a single bill of $123.45 for
500 kWh yields an average cost of exactly 0.2469. -/
theorem c6_avg_cost_guarded_witness :
    computeBilling [BillRow.toRaw ⟨0, 2469/20, 500⟩] =
      some ⟨2469/20, 500, 2469/10000⟩ := by
  have h := (c6_avg_cost_guarded ⟨0, 2469/20, 500⟩ []).1
  rw [show ((⟨0, 2469/20, 500⟩ : BillRow) :: []).map BillRow.toRaw =
    [BillRow.toRaw ⟨0, 2469/20, 500⟩] from rfl] at h
  rw [h]
  norm_num [latestBill]

/-! ### Claims about the usage aggregation -/

theorem find?_desc_larger {l : List Int} {p : Int → Bool} {d x : Int}
    (hp : l.Pairwise (· > ·)) (hf : l.find? p = some d) (hx : x ∈ l)
    (hdx : d < x) : p x = false := by
  induction l with
  | nil => simp at hx
  | cons y ys ih =>
    rcases List.pairwise_cons.mp hp with ⟨hy, hys⟩
    cases hpy : p y with
    | false =>
      rw [List.find?_cons_of_neg _ (by simp [hpy])] at hf
      rcases List.mem_cons.mp hx with rfl | hx2
      · exact hpy
      · exact ih hys hf hx2
    | true =>
      rw [List.find?_cons_of_pos _ hpy] at hf
      injection hf with hf
      subst hf
      rcases List.mem_cons.mp hx with rfl | hx2
      · omega
      · have := hy x hx2
        omega

theorem pairwise_daysDesc (rs : List UR) :
    (daysDesc rs).Pairwise (· > ·) := by
  unfold daysDesc
  rw [List.pairwise_reverse]
  exact pairwise_sortedKeys _

theorem mem_daysDesc_of_count_pos {rs : List UR} {d : Int}
    (h : 0 < dayCount rs d) : d ∈ daysDesc rs := by
  unfold dayCount dayReadings at h
  rcases List.exists_mem_of_length_pos h with ⟨r, hr⟩
  have hr2 := List.mem_filter.mp hr
  have hd : urDay r = d := by simpa using hr2.2
  unfold daysDesc
  rw [List.mem_reverse, mem_sortedKeys]
  exact hd ▸ List.mem_map_of_mem urDay hr2.1

/-- A calendar date is complete in the spec's sense iff it holds a
reading at every one of the 96 expected 15-minute slots of the day.
This follows the spec's words, for comparison against the source's
count test. -/
def slotComplete (rs : List UR) (d : Int) : Bool :=
  (List.range 96).all
    (fun k => rs.any (fun r => urDay r = d ∧ r.t % 1440 = 15 * (k : Int)))

/-- The daily-usage value the claim describes: the sum over the most
recent slot-complete date, 0 when no date is slot-complete.  This
follows the spec's words, for comparison against dailyUsage. -/
def specDailyUsage (rs : List UR) : Rat :=
  match (daysDesc rs).find? (slotComplete rs) with
  | some d => daySum rs d
  | none => 0

/-- 96 readings that all sit in the very first slot of day 0. -/
def dupSlotDay : List UR := List.replicate 96 ⟨0, 1⟩

theorem daySum_dupSlotDay : daySum dupSlotDay 0 = 96 := by
  have hfil : (List.replicate 96 (⟨0, 1⟩ : UR)).filter
      (fun r => decide (urDay r = 0)) = List.replicate 96 ⟨0, 1⟩ :=
    List.filter_eq_self.mpr (by intro a ha; rw [List.eq_of_mem_replicate ha]; rfl)
  unfold daySum dayReadings dupSlotDay
  rw [hfil, List.map_replicate, List.sum_replicate]
  norm_num

/-- Counterexample to claim C3: a date can be chosen (and its sum
reported) on the strength of 96 readings by count even though the
readings cover a single 15-minute slot, so no date is complete in the
spec's slot-coverage sense; the claim would then require daily_usage 0,
but the source reports 96. -/
theorem c3_slot_coverage_counterexample :
    dailyUsage dupSlotDay = 96 ∧ specDailyUsage dupSlotDay = 0 ∧
    dailyUsage dupSlotDay ≠ specDailyUsage dupSlotDay := by
  have hdaily : dailyUsage dupSlotDay = 96 := by
    have hm : mostRecentFullDay dupSlotDay = some 0 := by decide
    unfold dailyUsage
    rw [hm]
    exact daySum_dupSlotDay
  have hspec : specDailyUsage dupSlotDay = 0 := by
    have hf : (daysDesc dupSlotDay).find? (slotComplete dupSlotDay) = none := by
      decide
    unfold specDailyUsage
    rw [hf]
  refine ⟨hdaily, hspec, ?_⟩
  rw [hdaily, hspec]
  norm_num

/-- Claim C3 (amended): daily_usage equals the exact sum of readings on
the chosen date, where the chosen date is the most recent calendar date
carrying at least 96 readings by count (slot coverage is not checked),
candidates being scanned from most recent to oldest; daily_usage is 0
when no date has at least 96 readings. -/
theorem c3_daily_most_recent_full_day (rs : List UR) :
    (∀ d, mostRecentFullDay rs = some d →
      96 ≤ dayCount rs d ∧ dailyUsage rs = daySum rs d ∧
      ∀ e, d < e → dayCount rs e < 96) ∧
    (mostRecentFullDay rs = none →
      dailyUsage rs = 0 ∧ ∀ e, dayCount rs e < 96) := by
  constructor
  · intro d hd
    have hp := List.find?_some hd
    have hcount : 96 ≤ dayCount rs d := by simpa using hp
    refine ⟨hcount, ?_, ?_⟩
    · unfold dailyUsage
      rw [show mostRecentFullDay rs = some d from hd]
    · intro e hde
      by_contra hcon
      push_neg at hcon
      have hmem : e ∈ daysDesc rs :=
        mem_daysDesc_of_count_pos (by omega)
      have := find?_desc_larger (pairwise_daysDesc rs) hd hmem hde
      simp at this
      omega
  · intro hn
    constructor
    · unfold dailyUsage
      rw [show mostRecentFullDay rs = none from hn]
    · intro e
      by_contra hcon
      push_neg at hcon
      have hmem : e ∈ daysDesc rs :=
        mem_daysDesc_of_count_pos (by omega)
      have := List.find?_eq_none.mp hn e hmem
      simp at this
      omega

/-- Witness for C3 (amended) at the 96-reading day: the chosen day is
day 0, its count is at least 96 and its sum is reported. -/
theorem c3_daily_most_recent_full_day_witness :
    mostRecentFullDay dupSlotDay = some 0 ∧
    96 ≤ dayCount dupSlotDay 0 ∧ dailyUsage dupSlotDay = daySum dupSlotDay 0 :=
  ⟨by decide,
    ((c3_daily_most_recent_full_day dupSlotDay).1 0 (by decide)).1,
    ((c3_daily_most_recent_full_day dupSlotDay).1 0 (by decide)).2.1⟩

theorem daySum_nonneg {rs : List UR} (h : ∀ r ∈ rs, 0 ≤ r.usage)
    (d : Int) : 0 ≤ daySum rs d := by
  apply List.sum_nonneg
  intro x hx
  rcases List.mem_map.mp hx with ⟨r, hr, rfl⟩
  exact h r (List.mem_filter.mp hr).1

/-- Claim C7: with non-negative usage values and a chosen most recent
full day, weekly_usage dominates daily_usage, with equality when the 6
preceding calendar days hold no readings. -/
theorem c7_weekly_dominates_daily (rs : List UR) (d : Int)
    (hnn : ∀ r ∈ rs, 0 ≤ r.usage)
    (hd : mostRecentFullDay rs = some d) :
    dailyUsage rs ≤ weeklyUsage rs ∧
    ((∀ r ∈ rs, ∀ i : Int, 1 ≤ i → i ≤ 6 → urDay r ≠ d - i) →
      weeklyUsage rs = dailyUsage rs) := by
  have hrange : List.range 7 = [0, 1, 2, 3, 4, 5, 6] := rfl
  have hsplit : weeklyUsage rs =
      daySum rs d + (daySum rs (d - 1) + (daySum rs (d - 2) +
        (daySum rs (d - 3) + (daySum rs (d - 4) + (daySum rs (d - 5) +
          daySum rs (d - 6)))))) := by
    unfold weeklyUsage
    rw [hd, hrange]
    norm_num
  have hdaily : dailyUsage rs = daySum rs d := by
    unfold dailyUsage
    rw [hd]
  constructor
  · rw [hsplit, hdaily]
    have h1 := daySum_nonneg hnn (d - 1)
    have h2 := daySum_nonneg hnn (d - 2)
    have h3 := daySum_nonneg hnn (d - 3)
    have h4 := daySum_nonneg hnn (d - 4)
    have h5 := daySum_nonneg hnn (d - 5)
    have h6 := daySum_nonneg hnn (d - 6)
    linarith
  · intro hemp
    have hz : ∀ k : Int, 1 ≤ k → k ≤ 6 → daySum rs (d - k) = 0 := by
      intro k hk1 hk6
      have hfil : dayReadings rs (d - k) = [] := by
        rw [dayReadings, List.filter_eq_nil_iff]
        intro r hr
        simp only [decide_eq_true_eq]
        exact hemp r hr k hk1 hk6
      rw [daySum, hfil]
      rfl
    rw [hsplit, hdaily, hz 1 (by norm_num) (by norm_num),
      hz 2 (by norm_num) (by norm_num), hz 3 (by norm_num) (by norm_num),
      hz 4 (by norm_num) (by norm_num), hz 5 (by norm_num) (by norm_num),
      hz 6 (by norm_num) (by norm_num)]
    ring

/-- Witness for C7 at the 96-reading day: usages are non-negative, the
chosen day is day 0, its six predecessors are empty, so weekly and
daily agree (and in particular weekly dominates daily). -/
theorem c7_weekly_dominates_daily_witness :
    (∀ r ∈ dupSlotDay, 0 ≤ r.usage) ∧
    mostRecentFullDay dupSlotDay = some 0 ∧
    dailyUsage dupSlotDay ≤ weeklyUsage dupSlotDay ∧
    weeklyUsage dupSlotDay = dailyUsage dupSlotDay := by
  have hnn : ∀ r ∈ dupSlotDay, 0 ≤ r.usage := by
    intro r hr
    rw [List.eq_of_mem_replicate hr]
    norm_num
  have hd : mostRecentFullDay dupSlotDay = some 0 := by decide
  have hemp : ∀ r ∈ dupSlotDay, ∀ i : Int, 1 ≤ i → i ≤ 6 →
      urDay r ≠ 0 - i := by
    intro r hr i hi1 hi6
    rw [List.eq_of_mem_replicate hr]
    show ¬((0 : Int) / 1440 = 0 - i)
    omega
  exact ⟨hnn, hd, (c7_weekly_dominates_daily dupSlotDay 0 hnn hd).1,
    (c7_weekly_dominates_daily dupSlotDay 0 hnn hd).2 hemp⟩

/-! ### Claims about the cycle combination -/

/-- Claim C10: a non-empty usage report whose rows all fail to parse
still produces a present usage summary with all three totals 0, no
latest timestamp and no interval readings, and the cycle succeeds. -/
theorem c10_unparseable_rows_still_success (rows : List (Option UR))
    (bF : Fetched RawBillRow) (fp lp : Int)
    (h1 : rows ≠ []) (h2 : ∀ x ∈ rows, x = none)
    (h3 : bF ≠ Fetched.netErr) :
    getData true (Fetched.rows rows) bF fp lp =
      some ⟨some ⟨0, 0, 0, none, []⟩, billingSummary bF⟩ := by
  have hvalid : rows.filterMap id = [] := List.filterMap_eq_nil_iff.mpr h2
  have hr3 : round3 0 = 0 := by norm_num [round3, roundHalfEven]
  have hstats : usageStatsOf rows fp lp = ⟨0, 0, 0, none, []⟩ := by
    unfold usageStatsOf
    rw [hvalid]
    simp only [show dailyUsage ([] : List UR) = 0 from rfl,
      show weeklyUsage ([] : List UR) = 0 from rfl,
      show ∀ a b : Int, monthlySum ([] : List UR) a b = 0 from fun a b => rfl,
      show latestTime ([] : List UR) = none from rfl,
      show sortByT ([] : List UR) = [] from rfl, hr3]
  cases bF with
  | netErr => exact absurd rfl h3
  | failed => simp [getData, usageSummary, billingSummary, h1, hstats]
  | rows lb => simp [getData, usageSummary, billingSummary, h1, hstats]

/-- Witness for C10 at a one-row report whose only row is unparseable
and a billing category that failed in a category-scoped way. -/
theorem c10_unparseable_rows_still_success_witness :
    getData true (Fetched.rows [none]) Fetched.failed 0 0 =
      some ⟨some ⟨0, 0, 0, none, []⟩, none⟩ := by
  have h := c10_unparseable_rows_still_success [none] Fetched.failed 0 0
    (by simp) (by simp) (by simp)
  simpa [billingSummary] using h

/-- Counterexample to claim C4: a transport error raised during the
billing fetch aborts the whole cycle, so the result is empty even
though the login succeeded and the usage category yielded a summary;
the claimed equivalence (empty result iff login failed or both
categories failed) is false at this input. -/
theorem c4_network_error_counterexample :
    getData true (Fetched.rows [some ⟨0, 1⟩]) Fetched.netErr 0 0 = none ∧
    usageSummary (Fetched.rows [some ⟨0, 1⟩]) 0 0 ≠ none ∧
    ¬(getData true (Fetched.rows [some ⟨0, 1⟩]) Fetched.netErr 0 0 = none ↔
      ((true : Bool) = false ∨
        (usageSummary (Fetched.rows [some ⟨0, 1⟩]) 0 0 = none ∧
          billingSummary Fetched.netErr = none))) := by
  refine ⟨rfl, by simp [usageSummary], ?_⟩
  intro hiff
  rcases hiff.mp rfl with h | ⟨h, _⟩
  · simp at h
  · simp [usageSummary] at h

/-- Claim C4 (amended): the cycle result is empty iff login fails, a
transport error is raised by the usage or billing fetch (which discards
the whole cycle, including an already-computed usage summary), or both
category summaries are empty; category-scoped fetch failures degrade to
partial results that keep the other category's summary. -/
theorem c4_propagation_policy (loginOk : Bool) (uF : Fetched (Option UR))
    (bF : Fetched RawBillRow) (fp lp : Int) :
    (getData loginOk uF bF fp lp = none ↔
      (loginOk = false ∨ uF = Fetched.netErr ∨ bF = Fetched.netErr ∨
        (usageSummary uF fp lp = none ∧ billingSummary bF = none))) ∧
    (∀ s, usageSummary uF fp lp = some s → billingSummary bF = none →
      loginOk = true → bF ≠ Fetched.netErr →
      getData loginOk uF bF fp lp = some ⟨some s, none⟩) ∧
    (∀ b, usageSummary uF fp lp = none → billingSummary bF = some b →
      loginOk = true → uF ≠ Fetched.netErr →
      getData loginOk uF bF fp lp = some ⟨none, some b⟩) := by
  refine ⟨?_, ?_, ?_⟩
  · cases loginOk with
    | false => simp [getData]
    | true =>
      cases uF with
      | netErr => simp [getData, usageSummary]
      | failed =>
        cases bF with
        | netErr => simp [getData, billingSummary]
        | failed => simp [getData, usageSummary, billingSummary]
        | rows lb =>
          cases hcb : computeBilling lb with
          | none => simp [getData, usageSummary, billingSummary, hcb]
          | some b => simp [getData, usageSummary, billingSummary, hcb]
      | rows l =>
        cases bF with
        | netErr => simp [getData, billingSummary]
        | failed =>
          by_cases hl : l = [] <;>
            simp [getData, usageSummary, billingSummary, hl]
        | rows lb =>
          by_cases hl : l = [] <;>
            cases hcb : computeBilling lb with
            | none => simp [getData, usageSummary, billingSummary, hl, hcb]
            | some b => simp [getData, usageSummary, billingSummary, hl, hcb]
  · intro s hs hb hlog hbf
    subst hlog
    cases uF with
    | netErr => simp [usageSummary] at hs
    | failed => simp [usageSummary] at hs
    | rows l =>
      by_cases hl : l = []
      · simp [usageSummary, hl] at hs
      · cases bF with
        | netErr => exact absurd rfl hbf
        | failed =>
          simp [usageSummary, hl] at hs
          simp [getData, usageSummary, billingSummary, hl, hs]
        | rows lb =>
          simp [usageSummary, hl] at hs
          simp only [billingSummary] at hb
          simp [getData, usageSummary, billingSummary, hl, hs, hb]
  · intro b hs hb hlog huf
    subst hlog
    cases bF with
    | netErr => simp [billingSummary] at hb
    | failed => simp [billingSummary] at hb
    | rows lb =>
      simp only [billingSummary] at hb
      cases uF with
      | netErr => exact absurd rfl huf
      | failed => simp [getData, usageSummary, billingSummary, hb]
      | rows l =>
        by_cases hl : l = []
        · simp [getData, usageSummary, billingSummary, hl, hb]
        · simp [usageSummary, hl] at hs

/-- Witness for C4 (amended): usage summary present, billing failed in a
category-scoped way, partial result keeps the usage summary. -/
theorem c4_propagation_policy_witness :
    usageSummary (Fetched.rows [some ⟨0, 1⟩]) 0 0 =
      some (usageStatsOf [some ⟨0, 1⟩] 0 0) ∧
    getData true (Fetched.rows [some ⟨0, 1⟩]) Fetched.failed 0 0 =
      some ⟨some (usageStatsOf [some ⟨0, 1⟩] 0 0), none⟩ :=
  ⟨by simp [usageSummary],
    (c4_propagation_policy true (Fetched.rows [some ⟨0, 1⟩])
        Fetched.failed 0 0).2.1 _ (by simp [usageSummary]) rfl rfl
      (by simp)⟩

/-! ### Login flows (custom_components scraper.py and legacy scraper.py)

The five-request Azure B2C sequence is embedded over an abstract
network environment: a function from the request index of the fixed
sequence and the cookie jar sent to a response.  A response carries the
fields the source inspects: the final URL (host, path segments and
parsed query string, abstracting substring checks on the URL text), the
raise_for_status outcome, the SETTINGS block with its csrf/transId
entries, the JSON status of the credential submission, the token
exchange form (action and inputs, already structurally parsed), and the
domains of cookies the exchange added to the session jar. -/

structure Url where
  host : String
  pathSegs : List String
  query : List (String × String)
deriving DecidableEq

structure Resp where
  url : Url
  httpOk : Bool
  settings : Option (Option String × Option String)
  status : String
  formAction : Option String
  formInputs : List (String × String)
  setCookies : List String
deriving DecidableEq

/-- parse_qs(urlparse(url).query).get("p", [None])[0]: the first
non-blank p value (parse_qs drops blank values by default). -/
def extractPolicy (query : List (String × String)) : Option String :=
  (query.find? (fun kv => kv.1 == "p" && kv.2 != "")).map Prod.snd

/-- The legacy scraper's policy selection: the query value when
present, else the first URL path segment (index 3 of the slash-split
URL text), else the hardcoded default policy. -/
def legacyPolicy (u : Url) : String :=
  match extractPolicy u.query with
  | some p => p
  | none =>
    match u.pathSegs.head? with
    | some s => s
    | none => "b2c_1a_accountlink_signuporsignin"

/-- form_data.get(key): first input with that name. -/
def lookupForm (inputs : List (String × String)) (k : String) :
    Option String :=
  (inputs.find? (fun kv => kv.1 == k)).map Prod.snd

/-- login() of custom_components/saskpower_smartmeter/scraper.py.  The
incoming jar is the session state left by any previous attempt; the
body clears it before the first request.  Returns the login outcome and
the final cookie jar. -/
def loginB2C (env : Nat → List String → Resp) (_jar0 : List String) :
    Bool × List String :=
  let r1 := env 0 ([] : List String)
  let jar1 := ([] : List String) ++ r1.setCookies
  if !r1.httpOk then (false, jar1)
  else if r1.url.host != "saskpowerb2c.b2clogin.com" then (false, jar1)
  else
    match r1.settings with
    | none => (false, jar1)
    | some (csrfOpt, transOpt) =>
      if csrfOpt.isNone || transOpt.isNone then (false, jar1)
      else
        match extractPolicy r1.url.query with
        | none => (false, jar1)
        | some _ =>
          let r3 := env 1 jar1
          let jar3 := jar1 ++ r3.setCookies
          if !r3.httpOk then (false, jar3)
          else if r3.status != "200" then (false, jar3)
          else
            let r4 := env 2 jar3
            let jar4 := jar3 ++ r4.setCookies
            if !r4.httpOk then (false, jar4)
            else
              match r4.formAction with
              | none => (false, jar4)
              | some _ =>
                if (lookupForm r4.formInputs "id_token").getD "" == "" then
                  (false, jar4)
                else
                  let r5 := env 3 jar4
                  let jar5 := jar4 ++ r5.setCookies
                  if !r5.httpOk then (false, jar5)
                  else if r5.url.pathSegs.contains "my-dashboard" then
                    (true, jar5)
                  else if jar5.any (fun d => d == "www.saskpower.com") then
                    (true, jar5)
                  else (false, jar5)

/-- login() of the legacy root-level scraper.py: same request sequence,
but the cookie jar is not cleared first, a missing policy falls back to
legacyPolicy instead of failing, and the final cookie fallback checks
exact membership of the bare domain. -/
def legacyLogin (env : Nat → List String → Resp) (jar0 : List String) :
    Bool × List String :=
  let r1 := env 0 jar0
  let jar1 := jar0 ++ r1.setCookies
  if !r1.httpOk then (false, jar1)
  else if r1.url.host != "saskpowerb2c.b2clogin.com" then (false, jar1)
  else
    match r1.settings with
    | none => (false, jar1)
    | some (csrfOpt, transOpt) =>
      if csrfOpt.isNone || transOpt.isNone then (false, jar1)
      else
        let _policy := legacyPolicy r1.url
        let r3 := env 1 jar1
        let jar3 := jar1 ++ r3.setCookies
        if !r3.httpOk then (false, jar3)
        else if r3.status != "200" then (false, jar3)
        else
          let r4 := env 2 jar3
          let jar4 := jar3 ++ r4.setCookies
          if !r4.httpOk then (false, jar4)
          else
            match r4.formAction with
            | none => (false, jar4)
            | some _ =>
              if (lookupForm r4.formInputs "id_token").getD "" == "" then
                (false, jar4)
              else
                let r5 := env 3 jar4
                let jar5 := jar4 ++ r5.setCookies
                if !r5.httpOk then (false, jar5)
                else if r5.url.pathSegs.contains "my-dashboard" then
                  (true, jar5)
                else if jar5.contains ".saskpower.com" then (true, jar5)
                else (false, jar5)

/-! ### Concrete environments for the login claims -/

def b2cUrl : Url :=
  ⟨"saskpowerb2c.b2clogin.com", ["saskpowerb2c.onmicrosoft.com"],
    [("p", "B2C_1A_SignIn")]⟩

/-- A step-1 landing that stayed on the provider host (no B2C redirect). -/
def offHostResp : Resp :=
  ⟨⟨"www.saskpower.com", [], []⟩, true, none, "", none, [], []⟩

def step1Resp : Resp :=
  ⟨b2cUrl, true, some (some "csrfTok", some "txId"), "", none, [], []⟩

def step3Resp : Resp := ⟨b2cUrl, true, none, "200", none, [], []⟩

def step4Resp : Resp :=
  ⟨b2cUrl, true, none, "",
    some "https://www.saskpower.com/identity/externallogincallback",
    [("id_token", "jwt")], []⟩

def step5Resp : Resp :=
  ⟨⟨"www.saskpower.com", ["profile", "my-dashboard"], []⟩, true, none, "",
    none, [], []⟩

/-- A network whose step-1 answer depends on the cookies presented:
with an empty jar the login-initiation never reaches the B2C host,
with any stale cookie it runs the happy path. -/
def envCookieSensitive (i : Nat) (jar : List String) : Resp :=
  match i with
  | 0 => if jar.isEmpty then offHostResp else step1Resp
  | 1 => step3Resp
  | 2 => step4Resp
  | _ => step5Resp

/-- A step-1 landing on the B2C host whose URL query carries no p
parameter. -/
def step1NoPolicy : Resp :=
  ⟨⟨"saskpowerb2c.b2clogin.com", ["saskpowerb2c.onmicrosoft.com"], []⟩,
    true, some (some "csrfTok", some "txId"), "", none, [], []⟩

def envNoPolicy (i : Nat) (_jar : List String) : Resp :=
  match i with
  | 0 => step1NoPolicy
  | 1 => step3Resp
  | 2 => step4Resp
  | _ => step5Resp

/-! ### Claims about the login flows -/

/-- Counterexample to claim C5: on a B2C page whose URL query has no
policy parameter the legacy root-level scraper does not fail; it
substitutes the first URL path segment and, failing that, the
hardcoded policy, and its login attempt completes successfully. -/
theorem c5_legacy_policy_fallback_counterexample :
    extractPolicy step1NoPolicy.url.query = none ∧
    legacyPolicy step1NoPolicy.url = "saskpowerb2c.onmicrosoft.com" ∧
    legacyPolicy ⟨"saskpowerb2c.b2clogin.com", [], []⟩ =
      "b2c_1a_accountlink_signuporsignin" ∧
    (legacyLogin envNoPolicy []).1 = true := by
  refine ⟨rfl, rfl, rfl, ?_⟩
  decide

/-- Claim C5 (amended): the integration scraper extracts the policy
from the step-1 URL's query parameters and fails the attempt when it is
absent, substituting nothing; the legacy root-level scraper instead
falls back to a URL path segment or the hardcoded policy
b2c_1a_accountlink_signuporsignin and proceeds. -/
theorem c5_policy_required (env : Nat → List String → Resp)
    (jar : List String)
    (h : extractPolicy ((env 0 ([] : List String)).url).query = none) :
    (loginB2C env jar).1 = false := by
  unfold loginB2C
  simp only [h]
  split
  · rfl
  · split
    · rfl
    · split
      · rfl
      · split
        · rfl
        · rfl

/-- Witness for C5 (amended): the integration login fails on the
concrete policy-free environment on which the legacy login succeeds. -/
theorem c5_policy_required_witness :
    extractPolicy ((envNoPolicy 0 ([] : List String)).url).query = none ∧
    (loginB2C envNoPolicy []).1 = false :=
  ⟨rfl, c5_policy_required envNoPolicy [] rfl⟩

/-- Counterexample to claim C8: the legacy root-level login never
clears the cookie jar, so two runs differing only in their pre-existing
cookies can behave differently: against the same network, the run with
an empty jar fails at step 1 while the run with a stale cookie
completes. -/
theorem c8_legacy_cookie_dependence_counterexample :
    (legacyLogin envCookieSensitive []).1 = false ∧
    (legacyLogin envCookieSensitive ["stale"]).1 = true := by
  constructor
  · decide
  · decide

/-- Claim C8 (amended): the integration's login() clears the session
cookie jar before its first request, so its outcome and resulting
session state are independent of whatever cookies a previous attempt
left behind; the legacy root-level login() performs no such clearing
and its outcome can depend on the pre-existing jar. -/
theorem c8_login_cookie_independent (env : Nat → List String → Resp)
    (jar1 jar2 : List String) :
    loginB2C env jar1 = loginB2C env jar2 ∧
    loginB2C env jar1 = loginB2C env [] := ⟨rfl, rfl⟩
